import Mathlib

/-!
# Verification of the `linebreak` package (gorilla/i18n)

A shallow embedding of `linebreak/linebreak.go`: the Unicode line-breaking
scanner (UAX #14), its pair table, and the LB1 class resolver, together with
theorems settling the specification's claims about them.

Modelling conventions:
* Go `rune` is `Char`; the input `[]rune` is a `List Char`.
* `BreakClass` is a Go `int` in the source, so it is `Nat` here; the numeric
  values of the `Class…` constants below follow the declaration order of the
  generated class list (the `classes` slice in `linebreak/maketables.go`,
  which emits them with `iota` starting at `ClassOP = 0`).
* The scanner's `err error` field can only ever hold `io.EOF` (the sole
  assignment is in `Scanner.nextClass`), so it is modelled as a `Bool`
  end-of-input flag.
* Go named return values start at their zero values; in particular
  `Next`'s `action` return starts as `BreakDirect` (= 0) and `pos` as 0,
  which the embedding reproduces at every bare `return`.
-/

/-- Line breaking actions, mirroring `type BreakAction int` and its
`iota` constants in `linebreak.go`. -/
inductive BreakAction : Type where
  | BreakDirect
  | BreakIndirect
  | BreakCombiningIndirect
  | BreakCombiningProhibited
  | BreakProhibited
  | BreakMandatory
  deriving DecidableEq, Repr

export BreakAction (BreakDirect BreakIndirect BreakCombiningIndirect
  BreakCombiningProhibited BreakProhibited BreakMandatory)

/-- `BreakClass` is declared as an integer type in the (generated) Go source;
classes are plain machine integers. -/
abbrev BreakClass : Type := Nat

/-! Line breaking classes, in the declaration order of the `classes` slice of
`maketables.go` (the generator of the Go `Class…` constants): the first 29
participate in the pair table, the rest are resolved outside of it. -/

def ClassOP : BreakClass := 0
def ClassCL : BreakClass := 1
def ClassCP : BreakClass := 2
def ClassQU : BreakClass := 3
def ClassGL : BreakClass := 4
def ClassNS : BreakClass := 5
def ClassEX : BreakClass := 6
def ClassSY : BreakClass := 7
def ClassIS : BreakClass := 8
def ClassPR : BreakClass := 9
def ClassPO : BreakClass := 10
def ClassNU : BreakClass := 11
def ClassAL : BreakClass := 12
def ClassHL : BreakClass := 13
def ClassID : BreakClass := 14
def ClassIN : BreakClass := 15
def ClassHY : BreakClass := 16
def ClassBA : BreakClass := 17
def ClassBB : BreakClass := 18
def ClassB2 : BreakClass := 19
def ClassZW : BreakClass := 20
def ClassCM : BreakClass := 21
def ClassWJ : BreakClass := 22
def ClassH2 : BreakClass := 23
def ClassH3 : BreakClass := 24
def ClassJL : BreakClass := 25
def ClassJV : BreakClass := 26
def ClassJT : BreakClass := 27
def ClassRI : BreakClass := 28
def ClassBK : BreakClass := 29
def ClassCR : BreakClass := 30
def ClassLF : BreakClass := 31
def ClassNL : BreakClass := 32
def ClassSG : BreakClass := 33
def ClassSP : BreakClass := 34
def ClassCB : BreakClass := 35
def ClassAI : BreakClass := 36
def ClassCJ : BreakClass := 37
def ClassSA : BreakClass := 38
def ClassXX : BreakClass := 39

/-- `type PairTable [][]BreakAction`: stores line breaking actions for
adjacent line breaking classes. -/
abbrev PairTable : Type := List (List BreakAction)

/-- `PairTable.Action`: the action for a class pair, `BreakProhibited` when
either index falls outside the table (Go: bounds check before indexing). -/
def PairTable.Action (t : PairTable) (before after : BreakClass) : BreakAction :=
  if h1 : before < t.length then
    let row := t.get ⟨before, h1⟩
    if h2 : after < row.length then row.get ⟨after, h2⟩
    else BreakProhibited
  else BreakProhibited

/-! Pair table shortcuts (`di`, `in`, `ci`, `cp`, `pr`, `ex` in the Go
source; `in` is a Lean keyword, hence the uppercase spellings). -/

def DI : BreakAction := BreakDirect
def IN : BreakAction := BreakIndirect
def CI : BreakAction := BreakCombiningIndirect
def CP : BreakAction := BreakCombiningProhibited
def PR : BreakAction := BreakProhibited
def EX : BreakAction := BreakMandatory

/-- `pairTable`: the example pair table from UAX #14 Table 2, transcribed
row for row from `linebreak.go` (29 rows of 29 entries; row and column
order OP CL CP QU GL NS EX SY IS PR PO NU AL HL ID IN HY BA BB B2 ZW CM WJ
H2 H3 JL JV JT RI). -/
def pairTable : PairTable := [
[PR, PR, PR, PR, PR, PR, PR, PR, PR, PR, PR, PR, PR, PR, PR, PR, PR, PR, PR, PR, PR, CP, PR, PR, PR, PR, PR, PR, PR],
[DI, PR, PR, IN, IN, PR, PR, PR, PR, IN, IN, DI, DI, DI, DI, DI, IN, IN, DI, DI, PR, CI, PR, DI, DI, DI, DI, DI, DI],
[DI, PR, PR, IN, IN, PR, PR, PR, PR, IN, IN, IN, IN, IN, DI, DI, IN, IN, DI, DI, PR, CI, PR, DI, DI, DI, DI, DI, DI],
[PR, PR, PR, IN, IN, IN, PR, PR, PR, IN, IN, IN, IN, IN, IN, IN, IN, IN, IN, IN, PR, CI, PR, IN, IN, IN, IN, IN, IN],
[IN, PR, PR, IN, IN, IN, PR, PR, PR, IN, IN, IN, IN, IN, IN, IN, IN, IN, IN, IN, PR, CI, PR, IN, IN, IN, IN, IN, IN],
[DI, PR, PR, IN, IN, IN, PR, PR, PR, DI, DI, DI, DI, DI, DI, DI, IN, IN, DI, DI, PR, CI, PR, DI, DI, DI, DI, DI, DI],
[DI, PR, PR, IN, IN, IN, PR, PR, PR, DI, DI, DI, DI, DI, DI, DI, IN, IN, DI, DI, PR, CI, PR, DI, DI, DI, DI, DI, DI],
[DI, PR, PR, IN, IN, IN, PR, PR, PR, DI, DI, IN, DI, DI, DI, DI, IN, IN, DI, DI, PR, CI, PR, DI, DI, DI, DI, DI, DI],
[DI, PR, PR, IN, IN, IN, PR, PR, PR, DI, DI, IN, IN, IN, DI, DI, IN, IN, DI, DI, PR, CI, PR, DI, DI, DI, DI, DI, DI],
[IN, PR, PR, IN, IN, IN, PR, PR, PR, DI, DI, IN, IN, IN, IN, DI, IN, IN, DI, DI, PR, CI, PR, IN, IN, IN, IN, IN, DI],
[IN, PR, PR, IN, IN, IN, PR, PR, PR, DI, DI, IN, IN, IN, DI, DI, IN, IN, DI, DI, PR, CI, PR, DI, DI, DI, DI, DI, DI],
[IN, PR, PR, IN, IN, IN, PR, PR, PR, IN, IN, IN, IN, IN, DI, IN, IN, IN, DI, DI, PR, CI, PR, DI, DI, DI, DI, DI, DI],
[IN, PR, PR, IN, IN, IN, PR, PR, PR, DI, DI, IN, IN, IN, DI, IN, IN, IN, DI, DI, PR, CI, PR, DI, DI, DI, DI, DI, DI],
[IN, PR, PR, IN, IN, IN, PR, PR, PR, DI, DI, IN, IN, IN, DI, IN, IN, IN, DI, DI, PR, CI, PR, DI, DI, DI, DI, DI, DI],
[DI, PR, PR, IN, IN, IN, PR, PR, PR, DI, IN, DI, DI, DI, DI, IN, IN, IN, DI, DI, PR, CI, PR, DI, DI, DI, DI, DI, DI],
[DI, PR, PR, IN, IN, IN, PR, PR, PR, DI, DI, DI, DI, DI, DI, IN, IN, IN, DI, DI, PR, CI, PR, DI, DI, DI, DI, DI, DI],
[DI, PR, PR, IN, DI, IN, PR, PR, PR, DI, DI, IN, DI, DI, DI, DI, IN, IN, DI, DI, PR, CI, PR, DI, DI, DI, DI, DI, DI],
[DI, PR, PR, IN, DI, IN, PR, PR, PR, DI, DI, DI, DI, DI, DI, DI, IN, IN, DI, DI, PR, CI, PR, DI, DI, DI, DI, DI, DI],
[IN, PR, PR, IN, IN, IN, PR, PR, PR, IN, IN, IN, IN, IN, IN, IN, IN, IN, IN, IN, PR, CI, PR, IN, IN, IN, IN, IN, IN],
[DI, PR, PR, IN, IN, IN, PR, PR, PR, DI, DI, DI, DI, DI, DI, DI, IN, IN, DI, PR, PR, CI, PR, DI, DI, DI, DI, DI, DI],
[DI, DI, DI, DI, DI, DI, DI, DI, DI, DI, DI, DI, DI, DI, DI, DI, DI, DI, DI, DI, PR, DI, DI, DI, DI, DI, DI, DI, DI],
[IN, PR, PR, IN, IN, IN, PR, PR, PR, DI, DI, IN, IN, IN, DI, IN, IN, IN, DI, DI, PR, CI, PR, DI, DI, DI, DI, DI, DI],
[IN, PR, PR, IN, IN, IN, PR, PR, PR, IN, IN, IN, IN, IN, IN, IN, IN, IN, IN, IN, PR, CI, PR, IN, IN, IN, IN, IN, IN],
[DI, PR, PR, IN, IN, IN, PR, PR, PR, DI, IN, DI, DI, DI, DI, IN, IN, IN, DI, DI, PR, CI, PR, DI, DI, DI, IN, IN, DI],
[DI, PR, PR, IN, IN, IN, PR, PR, PR, DI, IN, DI, DI, DI, DI, IN, IN, IN, DI, DI, PR, CI, PR, DI, DI, DI, DI, IN, DI],
[DI, PR, PR, IN, IN, IN, PR, PR, PR, DI, IN, DI, DI, DI, DI, IN, IN, IN, DI, DI, PR, CI, PR, IN, IN, IN, IN, DI, DI],
[DI, PR, PR, IN, IN, IN, PR, PR, PR, DI, IN, DI, DI, DI, DI, IN, IN, IN, DI, DI, PR, CI, PR, DI, DI, DI, IN, IN, DI],
[DI, PR, PR, IN, IN, IN, PR, PR, PR, DI, IN, DI, DI, DI, DI, IN, IN, IN, DI, DI, PR, CI, PR, DI, DI, DI, DI, IN, DI],
[DI, PR, PR, IN, IN, IN, PR, PR, PR, DI, DI, DI, DI, DI, DI, DI, IN, IN, DI, DI, PR, CI, PR, DI, DI, DI, DI, DI, IN]
]

/-- The state of a `Scanner` (`linebreak.go`): current position, the class of
the previous rune, and the (sole, end-of-input) error flag. The `Resolver`,
`Table` and `runes` fields of the Go struct are passed as parameters instead,
since no operation mutates them. -/
structure ScanState : Type where
  pos : Nat
  prevClass : BreakClass
  err : Bool
  deriving DecidableEq, Repr

/-- The scanner state `NewScanner` creates: all fields at their zero
values (`pos = 0`, `prevClass = 0 = ClassOP`, no error). -/
def initState : ScanState := ⟨0, ClassOP, false⟩

/-- Result of `Scanner.nextClass`: the class read, the end-of-input flag
(Go: `err == io.EOF`), and the updated scanner state. -/
structure ClassResult : Type where
  cls : BreakClass
  eof : Bool
  state : ScanState
  deriving DecidableEq, Repr

/-- Result of `Scanner.Next`: the returned `(pos, action, err)` triple
together with the updated scanner state. -/
structure StepResult : Type where
  pos : Nat
  action : BreakAction
  eof : Bool
  state : ScanState
  deriving DecidableEq, Repr

/-- The `switch cls` rewriting at the end of `Scanner.nextClass`: `NL`
always becomes `BK`; at start of text (`sot`), `SP` becomes `WJ` and `LF`
becomes `BK`. -/
def rewriteClass (sot : Bool) (cls : BreakClass) : BreakClass :=
  if cls = ClassNL then ClassBK
  else if cls = ClassSP then (if sot then ClassWJ else cls)
  else if cls = ClassLF then (if sot then ClassBK else cls)
  else cls

/-- `Scanner.nextClass`: returns the next line breaking class of the input.
A frozen error is returned as is; reading past the end sets the error
(Go: `s.err = io.EOF`). On a bare error return Go's named `cls` result
keeps its zero value `0 = ClassOP`, which the caller ignores. -/
def ScanState.nextClass (R : Char → BreakClass) (runes : List Char)
    (s : ScanState) : ClassResult :=
  if s.err then ⟨ClassOP, true, s⟩
  else if runes.length ≤ s.pos then ⟨ClassOP, true, { s with err := true }⟩
  else
    ⟨rewriteClass (decide (s.pos = 0)) (R (runes.getD s.pos 'a')), false,
      { s with pos := s.pos + 1 }⟩

/-- The body of `Scanner.Next` after its single call of `nextClass` (both
Go branches call `nextClass` first): `pos0` and `prev` are the position and
"before" class at entry, `cls`, `eof` and `s1` the results of the read.
A direct transcription of the Go control flow; every bare `return` yields
the current values of the named results (`pos` starts at 0 and `action` at
`BreakDirect`, their Go zero values). -/
def nextCore (T : PairTable) (pos0 : Nat) (prev : BreakClass)
    (cls : BreakClass) (eof : Bool) (s1 : ScanState) : StepResult :=
  if pos0 = 0 then
    -- Read start of text and set prevClass.
    if eof then ⟨0, BreakMandatory, true, s1⟩
    else ⟨0, BreakProhibited, false, { s1 with prevClass := cls }⟩
  else
    if eof then ⟨pos0, BreakMandatory, true, s1⟩
    else if ¬(prev ≠ ClassBK ∧ (prev ≠ ClassCR ∨ cls = ClassLF)) then
      -- bare `return`: action keeps its zero value BreakDirect
      ⟨pos0, BreakDirect, false, s1⟩
    else if cls = ClassBK ∨ cls = ClassLF then
      ⟨pos0, BreakProhibited, false, { s1 with prevClass := ClassBK }⟩
    else if cls = ClassCR then
      ⟨pos0, BreakProhibited, false, { s1 with prevClass := ClassCR }⟩
    else if cls = ClassSP then
      -- rule LB7; do not update prevClass
      ⟨pos0, BreakProhibited, false, s1⟩
    else
      match T.Action prev cls with
      | BreakIndirect =>
        if prev = ClassSP then
          ⟨pos0, BreakIndirect, false, { s1 with prevClass := cls }⟩
        else
          ⟨pos0, BreakProhibited, false, { s1 with prevClass := cls }⟩
      | BreakCombiningIndirect =>
        if prev = ClassSP then
          ⟨pos0, BreakCombiningIndirect, false, { s1 with prevClass := cls }⟩
        else
          -- rule LB9: early return, prevClass not updated
          ⟨pos0, BreakProhibited, false, s1⟩
      | BreakCombiningProhibited =>
        if prev = ClassSP then
          -- rule LB9: early return, prevClass not updated
          ⟨pos0, BreakProhibited, false, s1⟩
        else
          ⟨pos0, BreakProhibited, false, { s1 with prevClass := cls }⟩
      | a =>
        ⟨pos0, a, false, { s1 with prevClass := cls }⟩

/-- `Scanner.Next`: finds the next line breaking action in the input —
one `nextClass` read followed by `nextCore` on its results. -/
def ScanState.next (R : Char → BreakClass) (T : PairTable) (runes : List Char)
    (s : ScanState) : StepResult :=
  nextCore T s.pos s.prevClass (s.nextClass R runes).cls
    (s.nextClass R runes).eof (s.nextClass R runes).state

/-- The state after one call of `Next`. -/
def stepState (R : Char → BreakClass) (T : PairTable) (runes : List Char)
    (s : ScanState) : ScanState :=
  (s.next R T runes).state

/-- The state after `n` calls of `Next`. -/
def iterState (R : Char → BreakClass) (T : PairTable) (runes : List Char) :
    Nat → ScanState → ScanState
  | 0, s => s
  | n + 1, s => iterState R T runes n (stepState R T runes s)

/-- The default `classResolver` of `linebreak.go` (UAX #14 rule LB1,
generic resolution). The raw classification table `Class` and the Unicode
mark test `unicode.Is(unicode.Mn, r) || unicode.Is(unicode.Mc, r)` live in
the generated `tables.go`, which is not part of the sources here; both are
taken as parameters (`cl` and `mnMc`), so every theorem below holds for the
generated data in particular. -/
def classResolver (cl : Char → BreakClass) (mnMc : Char → Bool) (r : Char) :
    BreakClass :=
  let cls := cl r
  if cls = ClassAI ∨ cls = ClassSG ∨ cls = ClassXX then ClassAL
  else if cls = ClassCJ then ClassNS
  else if cls = ClassSA then (if mnMc r then ClassCM else ClassAL)
  else if cls = ClassCB then ClassID
  else cls

/-- A concrete class resolver used for the end-to-end scenarios: the
scanner is parametrized over its `Resolver`, and this one assigns exactly
the classes the claims prescribe for their test characters (the default
resolver assigns the same classes to these characters). -/
def simpleResolver (c : Char) : BreakClass :=
  if c = ' ' then ClassSP
  else if c = '\r' then ClassCR
  else if c = '\n' then ClassLF
  else if c = '(' then ClassOP
  else if c = '*' then ClassCM
  else if c = '~' then ClassZW
  else ClassAL

/-- The consumer-side collapse of actions into "a break occurs here",
mirroring `breakToInts` in the package's test driver: Direct, Indirect,
CombiningIndirect and Mandatory count as breaks. -/
def isBreak : BreakAction → Bool
  | BreakDirect => true
  | BreakIndirect => true
  | BreakCombiningIndirect => true
  | BreakMandatory => true
  | _ => false

/-- Driver loop, mirroring `getActions` of the package's test driver:
call `Next` repeatedly, collecting results, until the error is reported
(with fuel, since Lean requires termination evidence). -/
def runScanner (R : Char → BreakClass) (T : PairTable) (runes : List Char) :
    Nat → ScanState → List StepResult
  | 0, _ => []
  | n + 1, s =>
    let r := s.next R T runes
    r :: (if r.eof then [] else runScanner R T runes n r.state)

/-- All results of scanning `runes` from a fresh scanner: each successful
call advances the position by one, so `runes.length + 1` calls suffice. -/
def scanAll (R : Char → BreakClass) (T : PairTable) (runes : List Char) :
    List StepResult :=
  runScanner R T runes (runes.length + 1) initState

/-- States reachable from the scanner `NewScanner` creates by repeated
calls of `Next` (for a fixed resolver, table and input). -/
inductive Reachable (R : Char → BreakClass) (T : PairTable) (runes : List Char) :
    ScanState → Prop where
  | init : Reachable R T runes initState
  | step {s : ScanState} : Reachable R T runes s →
      Reachable R T runes (s.next R T runes).state

/-! ## Helper lemmas about `nextClass` and `next` -/

/-- A frozen error is returned as is, with no state change. -/
lemma nextClass_frozen (R : Char → BreakClass) (runes : List Char) (s : ScanState)
    (h : s.err = true) : s.nextClass R runes = ⟨ClassOP, true, s⟩ := by
  unfold ScanState.nextClass
  simp [h]

/-- Reading past the end of the input sets the error. -/
lemma nextClass_atEnd (R : Char → BreakClass) (runes : List Char) (s : ScanState)
    (h : s.err = false) (h2 : runes.length ≤ s.pos) :
    s.nextClass R runes = ⟨ClassOP, true, { s with err := true }⟩ := by
  unfold ScanState.nextClass
  simp [h, h2]

/-- A successful read returns the rewritten class and advances the position. -/
lemma nextClass_ok (R : Char → BreakClass) (runes : List Char) (s : ScanState)
    (h : s.err = false) (h2 : s.pos < runes.length) :
    s.nextClass R runes =
      ⟨rewriteClass (decide (s.pos = 0)) (R (runes.getD s.pos 'a')), false,
        { s with pos := s.pos + 1 }⟩ := by
  unfold ScanState.nextClass
  simp [h, Nat.not_le.mpr h2]

/-- A call of `Next` on a frozen scanner changes nothing and reports
`(pos, Mandatory, EOF)` (with `pos = 0` when the scanner froze on its very
first read, since Go's named `pos` result keeps its zero value there). -/
lemma next_frozen (R : Char → BreakClass) (T : PairTable) (runes : List Char)
    (s : ScanState) (h : s.err = true) :
    s.next R T runes =
      ⟨if s.pos = 0 then 0 else s.pos, BreakMandatory, true, s⟩ := by
  unfold ScanState.next
  rw [nextClass_frozen R runes s h]
  unfold nextCore
  by_cases hp : s.pos = 0 <;> simp [hp]

/-- After a successful read, `nextCore` never reports end of input. -/
lemma nextCore_not_eof (T : PairTable) (pos0 : Nat) (prev cls : BreakClass)
    (s1 : ScanState) : (nextCore T pos0 prev cls false s1).eof = false := by
  unfold nextCore
  (repeat' split) <;> simp_all

/-- A successful read never reports end of input, through every branch of
`Next`. -/
lemma next_ok_not_eof (R : Char → BreakClass) (T : PairTable) (runes : List Char)
    (s : ScanState) (h : s.err = false) (h2 : s.pos < runes.length) :
    (s.next R T runes).eof = false := by
  unfold ScanState.next
  rw [nextClass_ok R runes s h h2]
  exact nextCore_not_eof T s.pos s.prevClass _ _

/-- A call of `Next` with the input exhausted (but not yet frozen) freezes
the scanner and reports `(pos, Mandatory, EOF)` without moving. -/
lemma next_atEnd (R : Char → BreakClass) (T : PairTable) (runes : List Char)
    (s : ScanState) (h : s.err = false) (h2 : runes.length ≤ s.pos) :
    s.next R T runes =
      ⟨if s.pos = 0 then 0 else s.pos, BreakMandatory, true,
        { s with err := true }⟩ := by
  unfold ScanState.next
  rw [nextClass_atEnd R runes s h h2]
  unfold nextCore
  by_cases hp : s.pos = 0 <;> simp [hp]

/-- `Next` reports end of input exactly when the scanner is frozen or the
position has passed the end of the input. -/
lemma next_eof_char (R : Char → BreakClass) (T : PairTable) (runes : List Char)
    (s : ScanState) :
    (s.next R T runes).eof = true ↔ (s.err = true ∨ runes.length ≤ s.pos) := by
  constructor
  · intro h
    by_cases herr : s.err = true
    · exact Or.inl herr
    · by_cases hlen : runes.length ≤ s.pos
      · exact Or.inr hlen
      · rw [next_ok_not_eof R T runes s (by simpa using herr) (Nat.not_le.mp hlen)] at h
        exact absurd h (by simp)
  · rintro (herr | hlen)
    · rw [next_frozen R T runes s herr]
    · by_cases herr : s.err = true
      · rw [next_frozen R T runes s herr]
      · rw [next_atEnd R T runes s (by simpa using herr) hlen]

/-- Whenever `Next` reports end of input, the result is the action
`BreakMandatory`, the resulting state is frozen, and neither the position
nor the recorded class move. -/
lemma next_eof_props (R : Char → BreakClass) (T : PairTable) (runes : List Char)
    (s : ScanState) (h : (s.next R T runes).eof = true) :
    (s.next R T runes).action = BreakMandatory
    ∧ (s.next R T runes).pos = (if s.pos = 0 then 0 else s.pos)
    ∧ (s.next R T runes).state.err = true
    ∧ (s.next R T runes).state.pos = s.pos
    ∧ (s.next R T runes).state.prevClass = s.prevClass := by
  rcases (next_eof_char R T runes s).mp h with herr | hlen
  · rw [next_frozen R T runes s herr]
    exact ⟨rfl, rfl, herr, rfl, rfl⟩
  · by_cases herr : s.err = true
    · rw [next_frozen R T runes s herr]
      exact ⟨rfl, rfl, herr, rfl, rfl⟩
    · rw [next_atEnd R T runes s (by simpa using herr) hlen]
      exact ⟨rfl, rfl, rfl, rfl, rfl⟩

/-! ## Claim theorems -/

/-- C6: `Next` returns a non-nil error exactly when the input is exhausted
(the scanner was already frozen, or the position has reached the end of the
input — the sole terminal condition, `io.EOF` in the source, here the `eof`
flag), and every call that reports this status returns the action
`BreakMandatory`; hence the final action reported for every input is
`BreakMandatory`. (That no other error exists is structural: the only error
value the source ever assigns is `io.EOF`, in `Scanner.nextClass`.) -/
theorem next_eof_iff_exhausted (R : Char → BreakClass) (T : PairTable)
    (runes : List Char) (s : ScanState) :
    ((s.next R T runes).eof = true ↔ (s.err = true ∨ runes.length ≤ s.pos))
    ∧ ((s.next R T runes).eof = true →
        (s.next R T runes).action = BreakMandatory) :=
  ⟨next_eof_char R T runes s, fun h => (next_eof_props R T runes s h).1⟩

/-- Witness for C6: on the one-rune input `['a']`, the second call (state at
position 1) is exhausted and reports `BreakMandatory`. -/
theorem next_eof_iff_exhausted_witness :
    ((ScanState.next simpleResolver pairTable ['a'] ⟨1, ClassAL, false⟩).eof = true)
    ∧ (ScanState.next simpleResolver pairTable ['a'] ⟨1, ClassAL, false⟩).action
        = BreakMandatory :=
  ⟨(next_eof_iff_exhausted simpleResolver pairTable ['a'] ⟨1, ClassAL, false⟩).1.mpr
      (Or.inr (by decide)),
   (next_eof_iff_exhausted simpleResolver pairTable ['a'] ⟨1, ClassAL, false⟩).2
      ((next_eof_iff_exhausted simpleResolver pairTable ['a'] ⟨1, ClassAL, false⟩).1.mpr
        (Or.inr (by decide)))⟩

/-- C7: idempotence of termination. Once a call of `Next` reports end of
input, the scanner is frozen: after any number `n` of further calls the
state is unchanged and the next call returns exactly the same
`(position, BreakMandatory, EOF)` tuple as the first terminal call. -/
theorem next_terminal_idempotent (R : Char → BreakClass) (T : PairTable)
    (runes : List Char) (s : ScanState)
    (h : (s.next R T runes).eof = true) (n : Nat) :
    ((iterState R T runes n (s.next R T runes).state).next R T runes)
        = ⟨(s.next R T runes).pos, BreakMandatory, true,
            (s.next R T runes).state⟩
    ∧ (s.next R T runes).action = BreakMandatory := by
  obtain ⟨hact, hpos, herr, hspos, hprev⟩ := next_eof_props R T runes s h
  have hfreeze : ∀ m, iterState R T runes m (s.next R T runes).state
      = (s.next R T runes).state := by
    intro m
    induction m with
    | zero => rfl
    | succ k ih =>
      have hstep : stepState R T runes (s.next R T runes).state
          = (s.next R T runes).state := by
        unfold stepState
        rw [next_frozen R T runes _ herr]
      simpa [iterState, hstep] using ih
  refine ⟨?_, hact⟩
  rw [hfreeze n, next_frozen R T runes _ herr, hspos, hpos]

/-- Witness for C7: on the empty input the first call reports end of input,
and one call later the scanner still returns the same terminal tuple. -/
theorem next_terminal_idempotent_witness :
    ((iterState simpleResolver pairTable [] 1
        (ScanState.next simpleResolver pairTable [] initState).state).next
          simpleResolver pairTable [])
      = ⟨(ScanState.next simpleResolver pairTable [] initState).pos,
          BreakMandatory, true,
          (ScanState.next simpleResolver pairTable [] initState).state⟩
    ∧ (ScanState.next simpleResolver pairTable [] initState).action
        = BreakMandatory :=
  next_terminal_idempotent simpleResolver pairTable [] initState (by decide) 1

/-- C8: `PairTable.Action` is a total function over all class pairs: with
`before` a valid row index and `after` a valid index of that row it returns
the stored entry, and otherwise (either axis out of range, e.g. a class
excluded from a smaller-than-full table) it returns `BreakProhibited`. -/
theorem pairtable_action_total (t : PairTable) (b a : BreakClass) :
    (b < t.length → a < (t.getD b []).length →
      t.Action b a = (t.getD b []).getD a BreakProhibited)
    ∧ (t.length ≤ b ∨ (t.getD b []).length ≤ a →
      t.Action b a = BreakProhibited) := by
  constructor
  · intro h1 h2
    have hrow : t.getD b [] = t.get ⟨b, h1⟩ := List.getD_eq_get _ _ h1
    rw [hrow] at h2 ⊢
    rw [List.getD_eq_get _ _ h2]
    unfold PairTable.Action
    rw [dif_pos h1, dif_pos h2]
  · rintro (h1 | h2)
    · unfold PairTable.Action
      rw [dif_neg (Nat.not_lt.mpr h1)]
    · by_cases h1 : b < t.length
      · unfold PairTable.Action
        rw [dif_pos h1, dif_neg]
        rw [List.getD_eq_get _ _ h1] at h2
        exact Nat.not_lt.mpr h2
      · unfold PairTable.Action
        rw [dif_neg h1]

/-- Witness for C8: a one-entry table returns its stored entry in bounds and
`BreakProhibited` when queried with a class excluded from the table (here
`ClassBK` on the row axis). -/
theorem pairtable_action_total_witness :
    PairTable.Action [[BreakDirect]] ClassOP ClassOP = BreakDirect
    ∧ PairTable.Action [[BreakDirect]] ClassBK ClassAL = BreakProhibited := by
  constructor
  · have h := (pairtable_action_total [[BreakDirect]] ClassOP ClassOP).1
      (by decide) (by decide)
    simpa using h
  · exact (pairtable_action_total [[BreakDirect]] ClassBK ClassAL).2
      (Or.inl (by decide))

/-- C9: the default class resolver implements the LB1 generic resolution,
for every raw classification `cl` and mark predicate `mnMc`: raw classes
AI, SG and XX resolve to AL; CJ to NS; SA to CM when the code point is an
Mn or Mc mark and AL otherwise; CB to ID; every other class is returned
unchanged. -/
theorem class_resolver_lb1 (cl : Char → BreakClass) (mnMc : Char → Bool)
    (r : Char) :
    ((cl r = ClassAI ∨ cl r = ClassSG ∨ cl r = ClassXX) →
        classResolver cl mnMc r = ClassAL)
    ∧ (cl r = ClassCJ → classResolver cl mnMc r = ClassNS)
    ∧ (cl r = ClassSA →
        classResolver cl mnMc r = if mnMc r then ClassCM else ClassAL)
    ∧ (cl r = ClassCB → classResolver cl mnMc r = ClassID)
    ∧ (cl r ≠ ClassAI → cl r ≠ ClassSG → cl r ≠ ClassXX → cl r ≠ ClassCJ →
        cl r ≠ ClassSA → cl r ≠ ClassCB →
        classResolver cl mnMc r = cl r) := by
  unfold classResolver
  refine ⟨?_, ?_, ?_, ?_, ?_⟩ <;> intros <;>
    simp_all [ClassAI, ClassSG, ClassXX, ClassCJ, ClassSA, ClassCB, ClassAL,
      ClassNS, ClassCM, ClassID]

/-- Witness for C9: concrete raw classifications exercising the CJ, SA and
pass-through cases of the resolver. -/
theorem class_resolver_lb1_witness :
    classResolver (fun _ => ClassCJ) (fun _ => false) 'x' = ClassNS
    ∧ classResolver (fun _ => ClassSA) (fun _ => true) 'y' = ClassCM
    ∧ classResolver (fun _ => ClassNU) (fun _ => false) 'z' = ClassNU := by
  refine ⟨(class_resolver_lb1 (fun _ => ClassCJ) (fun _ => false) 'x').2.1 rfl,
    ?_,
    (class_resolver_lb1 (fun _ => ClassNU) (fun _ => false) 'z').2.2.2.2
      (by decide) (by decide) (by decide) (by decide) (by decide) (by decide)⟩
  have h := (class_resolver_lb1 (fun _ => ClassSA) (fun _ => true) 'y').2.2.1 rfl
  simpa using h

/-- C10: start-of-text normalization in `nextClass`. If the very first
code point resolves to `ClassSP`, the first call of `Next` records the
"before" class as `ClassWJ` instead; a space at any later position keeps
class `ClassSP`; and `ClassNL` is rewritten to `ClassBK` at every
position, not only at the start of text. -/
theorem nextclass_start_normalization (R : Char → BreakClass) (T : PairTable)
    (runes : List Char) (s : ScanState) :
    (s.pos = 0 → s.err = false → 0 < runes.length →
      R (runes.getD 0 'a') = ClassSP →
      (s.next R T runes).state.prevClass = ClassWJ)
    ∧ (s.pos ≠ 0 → s.err = false → s.pos < runes.length →
        R (runes.getD s.pos 'a') = ClassSP →
        (s.nextClass R runes).cls = ClassSP)
    ∧ (s.err = false → s.pos < runes.length →
        R (runes.getD s.pos 'a') = ClassNL →
        (s.nextClass R runes).cls = ClassBK) := by
  refine ⟨?_, ?_, ?_⟩
  · intro hp herr hlen hsp
    unfold ScanState.next
    rw [nextClass_ok R runes s herr (hp ▸ hlen)]
    unfold nextCore
    simp only [List.getD_eq_getElem?_getD] at hsp
    simp [hp, hsp, rewriteClass, ClassSP, ClassNL, ClassWJ]
  · intro hp herr hlen hsp
    rw [nextClass_ok R runes s herr hlen]
    simp only [hsp, rewriteClass]
    simp [ClassSP, ClassNL, ClassWJ, hp]
  · intro herr hlen hnl
    rw [nextClass_ok R runes s herr hlen]
    simp only [hnl, rewriteClass]
    simp [ClassNL, ClassBK]

/-- Witness for C10: a leading space is recorded as `ClassWJ`; a later
space keeps `ClassSP`; `ClassNL` (resolved here for the character `§`)
becomes `ClassBK` away from the start of text. -/
theorem nextclass_start_normalization_witness :
    (ScanState.next simpleResolver pairTable [' ', 'a'] initState).state.prevClass
        = ClassWJ
    ∧ (ScanState.nextClass simpleResolver [' ', ' '] ⟨1, ClassWJ, false⟩).cls
        = ClassSP
    ∧ (ScanState.nextClass (fun _ => ClassNL) ['x'] initState).cls = ClassBK :=
  ⟨(nextclass_start_normalization simpleResolver pairTable [' ', 'a'] initState).1
      rfl rfl (by decide) (by decide),
   (nextclass_start_normalization simpleResolver pairTable [' ', ' ']
      ⟨1, ClassWJ, false⟩).2.1 (by decide) rfl (by decide) (by decide),
   (nextclass_start_normalization (fun _ => ClassNL) pairTable ['x'] initState).2.2
      rfl (by decide) rfl⟩

/-- C1 (failing input): scanning `"a b"` — classes AL, SP, AL — yields the
actions `[Prohibited, Prohibited, Prohibited, Mandatory]`: the action at
the second letter is `BreakProhibited`, although the pair table's AL×AL
entry is `BreakIndirect` and the two letters are separated by a space.
The `ClassSP` case of `Next` never records `ClassSP` in `prevClass`, so the
`prevClass = ClassSP` test in the Indirect-resolution branch can never
succeed and an Indirect break is never reported. -/
theorem scan_space_indirect_dead :
    pairTable.Action ClassAL ClassAL = BreakIndirect
    ∧ (scanAll simpleResolver pairTable ['a', ' ', 'b']).map
        (fun r => (r.pos, r.action, r.eof))
      = [(0, BreakProhibited, false), (1, BreakProhibited, false),
         (2, BreakProhibited, false), (3, BreakMandatory, true)]
    ∧ simpleResolver 'a' = ClassAL ∧ simpleResolver ' ' = ClassSP := by
  decide

/-- C5: scanning `"x\r\ny"` — classes AL, CR, LF, AL — yields exactly one
break before end of input, at position 3 (the position following the LF),
so the CR–LF pair is not double-counted. (The break at position 3 is
reported as `BreakDirect`, Go's zero value for the action, which the
package's consumers count as a break.) -/
theorem scan_crlf_single_break :
    (scanAll simpleResolver pairTable ['x', '\r', '\n', 'y']).map
        (fun r => (r.pos, r.action, r.eof))
      = [(0, BreakProhibited, false), (1, BreakProhibited, false),
         (2, BreakProhibited, false), (3, BreakDirect, false),
         (4, BreakMandatory, true)]
    ∧ ((scanAll simpleResolver pairTable ['x', '\r', '\n', 'y']).filter
        (fun r => !r.eof && isBreak r.action)).map StepResult.pos = [3] := by
  decide

/-- C2 (counterexample): after a hard-break class has been recorded (here
from a leading LF, rewritten to BK at start of text), the next call of
`Next` returns the action `BreakDirect` — Go's zero value for the named
`action` result — and not `BreakProhibited` as claimed. -/
theorem hard_break_guard_cex :
    (scanAll simpleResolver pairTable ['\n', 'a']).map StepResult.action
      = [BreakProhibited, BreakDirect, BreakMandatory]
    ∧ BreakDirect ≠ BreakProhibited := by
  decide

/-- C2 (amended): for every call of `Next` in which the recorded "before"
class is `ClassBK`, or is `ClassCR` while the current character's class is
not `ClassLF`, `Next` returns the action `BreakDirect` (the Go zero value
of the named `action` result, counted as a break by the package's
consumers) and leaves the recorded "before" class unchanged, only
advancing the position. -/
theorem hard_break_guard (R : Char → BreakClass) (T : PairTable)
    (runes : List Char) (s : ScanState)
    (h0 : s.pos ≠ 0) (h1 : s.err = false) (h2 : s.pos < runes.length)
    (h3 : s.prevClass = ClassBK
      ∨ (s.prevClass = ClassCR
          ∧ rewriteClass false (R (runes.getD s.pos 'a')) ≠ ClassLF)) :
    s.next R T runes
      = ⟨s.pos, BreakDirect, false, { s with pos := s.pos + 1 }⟩ := by
  unfold ScanState.next
  rw [nextClass_ok R runes s h1 h2]
  unfold nextCore
  rw [if_neg h0]
  have hsot : decide (s.pos = 0) = false := by simp [h0]
  rw [hsot]
  have hguard : ¬(s.prevClass ≠ ClassBK
      ∧ (s.prevClass ≠ ClassCR
          ∨ rewriteClass false (R (runes.getD s.pos 'a')) = ClassLF)) := by
    rcases h3 with hbk | ⟨hcr, hlf⟩
    · exact fun hc => hc.1 hbk
    · rintro ⟨-, hc | hc⟩
      · exact hc hcr
      · exact hlf hc
  simp [hguard]
  intro hA hB
  rcases h3 with hbk | ⟨hcr, hlf⟩
  · exact absurd hbk hA
  · exact absurd (hB hcr) (by simpa [List.getD_eq_getElem?_getD] using hlf)

/-- Witness for C2 (amended): with `prevClass = ClassBK` recorded at
position 1 of `"\na"`, the call returns `BreakDirect` and keeps
`prevClass = ClassBK`. -/
theorem hard_break_guard_witness :
    ScanState.next simpleResolver pairTable ['\n', 'a'] ⟨1, ClassBK, false⟩
      = ⟨1, BreakDirect, false, ⟨2, ClassBK, false⟩⟩ :=
  hard_break_guard simpleResolver pairTable ['\n', 'a'] ⟨1, ClassBK, false⟩
    (by decide) rfl (by decide) (Or.inl rfl)

/-- At start of text the rewritten class is never `ClassSP` (a leading
space is rewritten to `ClassWJ`). -/
lemma rewrite_sot_ne_sp (c : BreakClass) : rewriteClass true c ≠ ClassSP := by
  unfold rewriteClass
  split_ifs with h1 h2 h3 <;>
    simp_all [ClassBK, ClassSP, ClassWJ, ClassNL, ClassLF]

/-- One call of `Next` preserves the invariant that the recorded "before"
class is not `ClassSP`: a leading space is recorded as `ClassWJ`, a later
space leaves the record unchanged, and every other update writes `ClassBK`,
`ClassCR`, or a current class that the explicit `ClassSP` branch has
already excluded. -/
lemma nextCore_prev_mem (T : PairTable) (pos0 : Nat) (prev cls : BreakClass)
    (s1 : ScanState) :
    (nextCore T pos0 prev cls false s1).state.prevClass = s1.prevClass
    ∨ (nextCore T pos0 prev cls false s1).state.prevClass = ClassBK
    ∨ (nextCore T pos0 prev cls false s1).state.prevClass = ClassCR
    ∨ ((nextCore T pos0 prev cls false s1).state.prevClass = cls
        ∧ (pos0 = 0 ∨ cls ≠ ClassSP)) := by
  unfold nextCore
  (repeat' split) <;> simp_all

lemma next_prev_ne_sp (R : Char → BreakClass) (T : PairTable)
    (runes : List Char) (s : ScanState) (h : s.prevClass ≠ ClassSP) :
    (s.next R T runes).state.prevClass ≠ ClassSP := by
  by_cases herr : s.err = true
  · rw [next_frozen R T runes s herr]
    exact h
  · by_cases hlen : runes.length ≤ s.pos
    · rw [next_atEnd R T runes s (by simpa using herr) hlen]
      exact h
    · have hnext : s.next R T runes
          = nextCore T s.pos s.prevClass
              (rewriteClass (decide (s.pos = 0)) (R (runes.getD s.pos 'a')))
              false { s with pos := s.pos + 1 } := by
        unfold ScanState.next
        rw [nextClass_ok R runes s (by simpa using herr) (Nat.not_le.mp hlen)]
      rw [hnext]
      rcases nextCore_prev_mem T s.pos s.prevClass
          (rewriteClass (decide (s.pos = 0)) (R (runes.getD s.pos 'a')))
          { s with pos := s.pos + 1 } with h1 | h1 | h1 | ⟨h1, h2⟩
      · rw [h1]
        exact h
      · rw [h1]
        decide
      · rw [h1]
        decide
      · rw [h1]
        rcases h2 with hz | hz
        · have hsot : decide (s.pos = 0) = true := by simp [hz]
          rw [hsot]
          exact rewrite_sot_ne_sp _
        · exact hz

/-- Every state reachable from a fresh scanner has a "before" class other
than `ClassSP` (the initial class is `ClassOP`, the zero value). -/
lemma reachable_prev_ne_sp (R : Char → BreakClass) (T : PairTable)
    (runes : List Char) (s : ScanState) (h : Reachable R T runes s) :
    s.prevClass ≠ ClassSP := by
  induction h with
  | init => decide
  | step _ ih => exact next_prev_ne_sp _ _ _ _ ih

/-- When the recorded "before" class is not `ClassSP`, every branch of
`nextCore` after a successful read returns `BreakDirect`,
`BreakProhibited`, or `BreakMandatory`: the Indirect and
CombiningIndirect resolutions collapse to `BreakProhibited` and
CombiningProhibited always does. -/
lemma nextCore_action_cases (T : PairTable) (pos0 : Nat) (prev cls : BreakClass)
    (s1 : ScanState) (h : prev ≠ ClassSP) :
    (nextCore T pos0 prev cls false s1).action = BreakDirect
    ∨ (nextCore T pos0 prev cls false s1).action = BreakProhibited
    ∨ (nextCore T pos0 prev cls false s1).action = BreakMandatory := by
  unfold nextCore
  (repeat' split) <;> try simp_all
  cases hA : T.Action prev cls <;> simp_all

/-- When the recorded "before" class is not `ClassSP`, a call of `Next`
only ever returns `BreakDirect`, `BreakProhibited`, or `BreakMandatory`. -/
lemma next_action_cases (R : Char → BreakClass) (T : PairTable)
    (runes : List Char) (s : ScanState) (h : s.prevClass ≠ ClassSP) :
    (s.next R T runes).action = BreakDirect
    ∨ (s.next R T runes).action = BreakProhibited
    ∨ (s.next R T runes).action = BreakMandatory := by
  by_cases herr : s.err = true
  · rw [next_frozen R T runes s herr]
    exact Or.inr (Or.inr rfl)
  · by_cases hlen : runes.length ≤ s.pos
    · rw [next_atEnd R T runes s (by simpa using herr) hlen]
      exact Or.inr (Or.inr rfl)
    · have hnext : s.next R T runes
          = nextCore T s.pos s.prevClass
              (rewriteClass (decide (s.pos = 0)) (R (runes.getD s.pos 'a')))
              false { s with pos := s.pos + 1 } := by
        unfold ScanState.next
        rw [nextClass_ok R runes s (by simpa using herr) (Nat.not_le.mp hlen)]
      rw [hnext]
      exact nextCore_action_cases T s.pos s.prevClass _ _ h

/-- C4: for every input, class resolver and pair table, the recorded
"before" class of a reachable scanner state is never `ClassSP` (so the
pair-table lookup in `Next` never sees a Space on the left), and
consequently `Next` never returns `BreakIndirect`,
`BreakCombiningIndirect` or `BreakCombiningProhibited`: its result is
always `BreakDirect`, `BreakProhibited` or `BreakMandatory`. -/
theorem scanner_prev_never_space (R : Char → BreakClass) (T : PairTable)
    (runes : List Char) (s : ScanState) (h : Reachable R T runes s) :
    s.prevClass ≠ ClassSP
    ∧ ((s.next R T runes).action = BreakDirect
      ∨ (s.next R T runes).action = BreakProhibited
      ∨ (s.next R T runes).action = BreakMandatory) :=
  ⟨reachable_prev_ne_sp R T runes s h,
   next_action_cases R T runes s (reachable_prev_ne_sp R T runes s h)⟩

/-- Witness for C4: the fresh scanner on input `"a"` (reachable by
construction) satisfies both conclusions. -/
theorem scanner_prev_never_space_witness :
    initState.prevClass ≠ ClassSP
    ∧ ((initState.next simpleResolver pairTable ['a']).action = BreakDirect
      ∨ (initState.next simpleResolver pairTable ['a']).action = BreakProhibited
      ∨ (initState.next simpleResolver pairTable ['a']).action = BreakMandatory) :=
  scanner_prev_never_space simpleResolver pairTable ['a'] initState Reachable.init

/-- Processing a combining-mark character (away from start of text) leaves
the scanner state unchanged except for the position whenever the "before"
class is a hard-break class (`ClassBK`, `ClassCR`; the CR–LF guard fires)
or its pair-table action against `ClassCM` is `BreakCombiningIndirect`
(rule LB9: the early return skips the `prevClass` update). -/
lemma nextCore_cm_step (T : PairTable) (pos0 : Nat) (prev : BreakClass)
    (s1 : ScanState) (h0 : pos0 ≠ 0) (h5 : prev ≠ ClassSP)
    (h6 : T.Action prev ClassCM = BreakCombiningIndirect
      ∨ prev = ClassBK ∨ prev = ClassCR) :
    (nextCore T pos0 prev ClassCM false s1).state = s1 := by
  rcases h6 with h6 | h6 | h6 <;>
    · unfold nextCore
      (repeat' split) <;>
        simp_all [ClassCM, ClassBK, ClassLF, ClassCR, ClassSP]

/-- Scanning a run of `n` combining-mark characters preserves the recorded
"before" class (under the conditions of `nextCore_cm_step`), advancing only
the position. -/
lemma cm_run (R : Char → BreakClass) (T : PairTable) (runes : List Char)
    (n : Nat) : ∀ s : ScanState,
    s.err = false → s.pos ≠ 0 → s.pos + n ≤ runes.length →
    s.prevClass ≠ ClassSP →
    (T.Action s.prevClass ClassCM = BreakCombiningIndirect
      ∨ s.prevClass = ClassBK ∨ s.prevClass = ClassCR) →
    (∀ i, i < n → R (runes.getD (s.pos + i) 'a') = ClassCM) →
    iterState R T runes n s = { s with pos := s.pos + n } := by
  induction n with
  | zero =>
    intro s h1 h2 h3 h4 h5 h6
    rfl
  | succ k ih =>
    intro s h1 h2 h3 h4 h5 h6
    have hstep : stepState R T runes s = { s with pos := s.pos + 1 } := by
      unfold stepState
      have hnext : s.next R T runes
          = nextCore T s.pos s.prevClass
              (rewriteClass (decide (s.pos = 0)) (R (runes.getD s.pos 'a')))
              false { s with pos := s.pos + 1 } := by
        unfold ScanState.next
        rw [nextClass_ok R runes s h1 (by omega)]
      have hcm : rewriteClass (decide (s.pos = 0)) (R (runes.getD s.pos 'a'))
          = ClassCM := by
        have hR := h6 0 (Nat.succ_pos k)
        rw [Nat.add_zero] at hR
        have hsot : decide (s.pos = 0) = false := by simp [h2]
        rw [hsot, hR]
        decide
      rw [hnext, hcm, nextCore_cm_step T s.pos s.prevClass _ h2 h4 h5]
    simp only [iterState]
    rw [hstep]
    have harith : s.pos + 1 + k = s.pos + (k + 1) := by omega
    have hih := ih { s with pos := s.pos + 1 } h1 (by simp) (by simp; omega) h4 h5
      (fun i hik => by
        have hc := h6 (i + 1) (by omega)
        have : s.pos + 1 + i = s.pos + (i + 1) := by omega
        simpa [this] using hc)
    rw [hih]
    simp [harith]

/-- C3 (counterexample): LB9 non-overwrite does not hold for a base of
*any* class. With the default table, scanning `'('` (class OP) and then the
combining mark `'*'` (class CM) — the pair-table entry OP×CM is
`BreakCombiningProhibited`, whose non-Space branch falls through to the
update — records `ClassCM`, not the base's `ClassOP`, as the "before" class
used for the next character's action. -/
theorem lb9_nonoverwrite_cex :
    simpleResolver '(' = ClassOP
    ∧ simpleResolver '*' = ClassCM
    ∧ (iterState simpleResolver pairTable ['(', '*', 'a'] 1 initState).prevClass
        = ClassOP
    ∧ (iterState simpleResolver pairTable ['(', '*', 'a'] 2 initState).prevClass
        = ClassCM
    ∧ ClassCM ≠ ClassOP := by
  decide

/-- C3 (amended): for every input in which a base character whose class's
pair-table action against the combining-mark class is
`BreakCombiningIndirect` (with the default table: every class except OP
and ZW), or whose class is `ClassBK` or `ClassCR`, is followed by a run of
combining-mark-class characters, the "before" class the scanner uses for
the action of the first character after the run equals the base
character's class: the run changes only the position. -/
theorem lb9_nonoverwrite (R : Char → BreakClass) (T : PairTable)
    (runes : List Char) (n : Nat) (s : ScanState)
    (h1 : s.err = false) (h2 : s.pos ≠ 0) (h3 : s.pos + n ≤ runes.length)
    (h4 : s.prevClass ≠ ClassSP)
    (h5 : T.Action s.prevClass ClassCM = BreakCombiningIndirect
      ∨ s.prevClass = ClassBK ∨ s.prevClass = ClassCR)
    (h6 : ∀ i, i < n → R (runes.getD (s.pos + i) 'a') = ClassCM) :
    (iterState R T runes n s).prevClass = s.prevClass
    ∧ (iterState R T runes n s).pos = s.pos + n
    ∧ (iterState R T runes n s).err = false := by
  rw [cm_run R T runes n s h1 h2 h3 h4 h5 h6]
  exact ⟨rfl, rfl, h1⟩

/-- Witness for C3 (amended): after scanning `'a'` (class AL, pair-table
action AL×CM = CombiningIndirect), a run of two combining marks leaves the
recorded "before" class at `ClassAL`. -/
theorem lb9_nonoverwrite_witness :
    (iterState simpleResolver pairTable ['a', '*', '*'] 2
        ⟨1, ClassAL, false⟩).prevClass = ClassAL
    ∧ (iterState simpleResolver pairTable ['a', '*', '*'] 2
        ⟨1, ClassAL, false⟩).pos = 1 + 2
    ∧ (iterState simpleResolver pairTable ['a', '*', '*'] 2
        ⟨1, ClassAL, false⟩).err = false :=
  lb9_nonoverwrite simpleResolver pairTable ['a', '*', '*'] 2
    ⟨1, ClassAL, false⟩ rfl (by decide) (by decide) (by decide)
    (Or.inl (by decide)) (by decide)
